import Mathlib

set_option maxRecDepth 20000

/-!
Verification development for the gridflow_api ingestion-to-forecast pipeline.

Each definition below is a shallow embedding of a function of the repository,
translated from the Python source (file and function named in its doc comment).
Machine floats are modelled as exact rationals, pandas timestamps as explicit
calendar data, and fallible code as `Except`.  External collaborators (the
Prophet forecasting engine, HTTP providers, the database) are modelled as
parameters or explicit state, following the contracts stated in the source.
-/

namespace GridFlow

/-! ## Calendar model

Timestamps handled by the forecaster and the enrichment cache are pandas
`Timestamp` values.  The pipeline only ever inspects their year, month, day and
hour components, so a timestamp is modelled as a year together with an hour
index inside that year (`0 ≤ hourOfYear < 24 * daysInYear year` for valid
instants); chronological order is lexicographic order on the two fields. -/

/-- Gregorian leap-year rule (as implemented by Python's `calendar`/`datetime`). -/
def isLeap (y : Nat) : Bool :=
  (y % 4 == 0 && y % 100 != 0) || (y % 400 == 0)

/-- Number of days of month `m` (1-based) of year `y`. -/
def daysInMonth (y m : Nat) : Nat :=
  if m = 2 then (if isLeap y then 29 else 28)
  else if m = 4 ∨ m = 6 ∨ m = 9 ∨ m = 11 then 30 else 31

/-- Number of days of year `y`. -/
def daysInYear (y : Nat) : Nat := if isLeap y then 366 else 365

/-- Number of hours of year `y`. -/
def hoursInYear (y : Nat) : Nat := 24 * daysInYear y

/-- A pandas timestamp, as far as the pipeline inspects it: a year and an hour
index within the year. -/
structure HourTs where
  year : Nat
  hourOfYear : Nat
deriving DecidableEq, Repr

/-- Total number of days of months `m`, `m+1`, …, `m+k-1` of year `y`. -/
def daysFromTo (y m : Nat) : Nat → Nat
  | 0 => 0
  | k + 1 => daysInMonth y m + daysFromTo y (m + 1) k

/-- Days of year `y` strictly before month `m` (1-based). -/
def daysBeforeMonth (y m : Nat) : Nat := daysFromTo y 1 (m - 1)

/-- The timestamp of year `y`, month `m`, day `d` (1-based), hour `h`. -/
def mkTs (y m d h : Nat) : HourTs :=
  ⟨y, 24 * (daysBeforeMonth y m + (d - 1)) + h⟩

/-- Helper for `dayIdxToMD`: starting at month `m`, walk forward while the
0-based day offset `d` overflows the current month.  `fuel` bounds the walk
(month 12 is reached after at most 11 steps from month 1). -/
def dayIdxToMDGo (y : Nat) : Nat → Nat → Nat → Nat × Nat
  | m, d, 0 => (m, d + 1)
  | m, d, fuel + 1 =>
    if d < daysInMonth y m then (m, d + 1)
    else dayIdxToMDGo y (m + 1) (d - daysInMonth y m) fuel

/-- Convert a 0-based day-of-year index of year `y` into a (month, day) pair
(both 1-based) — the `month`/`day` components pandas exposes on a timestamp. -/
def dayIdxToMD (y d : Nat) : Nat × Nat := dayIdxToMDGo y 1 d 11

/-- Chronological sort key of a timestamp (faithful for valid instants, whose
hour index is below 8,784). -/
def HourTs.key (t : HourTs) : Nat := t.year * 100000 + t.hourOfYear

/-! ## `app/services/forecaster.py` -/

/-- `_make_future_df(forecast_year)`: the hourly UTC date range covering every
hour of the forecast year, in ascending order (`pd.date_range(start, end,
freq="1h", inclusive="left")`). -/
def make_future_df (forecast_year : Nat) : List HourTs :=
  (List.range (hoursInYear forecast_year)).map (fun i => ⟨forecast_year, i⟩)

/-- A row of the cached weather DataFrame handed to the forecaster
(`load_weather_df` output: columns ts, temperature_2m, solar_radiation,
wind_speed_10m, precipitation; each regressor may be missing). -/
structure WxRow where
  ts : HourTs
  temperature_2m : Option ℚ
  solar_radiation : Option ℚ
  wind_speed_10m : Option ℚ
  precipitation : Option ℚ
deriving DecidableEq, Repr

/-- The inner lambda of `_shift_to_year` in `_align_weather_to_future`:
`t.replace(year=target_year)` unless the timestamp is Feb 29, in which case
`t.replace(year=target_year, day=28)`.  (The surrounding `try/except` of the
source is unreachable for valid timestamps, because the Feb-29 branch is the
only way `replace(year=...)` could raise.) -/
def shiftToYear (targetYear : Nat) (t : HourTs) : HourTs :=
  let d := t.hourOfYear / 24
  let h := t.hourOfYear % 24
  let md := dayIdxToMD t.year d
  if md.1 = 2 ∧ md.2 = 29 then mkTs targetYear 2 28 h
  else mkTs targetYear md.1 md.2 h

/-- `shiftToYear` applied to the `ts` field of a weather row. -/
def WxRow.shifted (r : WxRow) (targetYear : Nat) : WxRow :=
  { r with ts := shiftToYear targetYear r.ts }

/-- The year-shift decision of `_align_weather_to_future`: the whole weather
frame is shifted onto the forecast year exactly when the year of its first
row differs from the forecast year
(`if w["ts"].dt.year.iloc[0] != forecast_year`).  The source never reaches
this code with an empty frame (`use_weather` requires non-emptiness). -/
def applyYearShift (w : List WxRow) (forecastYear : Nat) : List WxRow :=
  match w with
  | [] => []
  | r0 :: _ =>
    if r0.ts.year ≠ forecastYear then w.map (fun r => r.shifted forecastYear) else w

/-- A row of the future frame after the weather merge: the future hour plus the
three regressor columns selected by `_WEATHER_REGRESSORS` (precipitation is
dropped by the column selection `w[["ds"] + list(_WEATHER_REGRESSORS)]`). -/
structure FutureRow where
  ds : HourTs
  temperature_2m : Option ℚ
  solar_radiation : Option ℚ
  wind_speed_10m : Option ℚ
deriving DecidableEq, Repr

/-- A future frame with no weather columns attached. -/
def plainFuture (future : List HourTs) : List FutureRow :=
  future.map (fun h => ⟨h, none, none, none⟩)

/-- `future_df.merge(w[...], on="ds", how="left")`: each future hour is paired
with every weather row whose (shifted) timestamp equals it, or with empty
regressors when no weather row matches.  A future hour matched by several
weather rows is emitted once per match — pandas left-merge semantics. -/
def mergeBlock (w : List WxRow) (f : HourTs) : List FutureRow :=
  match w.filter (fun r => r.ts == f) with
  | [] => [⟨f, none, none, none⟩]
  | ms => ms.map (fun r => ⟨f, r.temperature_2m, r.solar_radiation, r.wind_speed_10m⟩)

def mergeWeather (future : List HourTs) (w : List WxRow) : List FutureRow :=
  future.flatMap (fun f => mergeBlock w f)

/-- Arithmetic mean of a list of rationals, `none` when the list is empty
(pandas `Series.mean()` of an all-NaN column is NaN, and `fillna(NaN)` leaves
the column unchanged). -/
def meanQ (l : List ℚ) : Option ℚ :=
  if l.isEmpty then none else some (l.sum / l.length)

/-- The final loop of `_align_weather_to_future`: fill each remaining missing
regressor value with the column mean. -/
def fillMeans (rows : List FutureRow) : List FutureRow :=
  let tMean := meanQ (rows.filterMap (fun r => r.temperature_2m))
  let sMean := meanQ (rows.filterMap (fun r => r.solar_radiation))
  let wMean := meanQ (rows.filterMap (fun r => r.wind_speed_10m))
  rows.map (fun r =>
    ⟨r.ds, (r.temperature_2m).orElse (fun _ => tMean),
      (r.solar_radiation).orElse (fun _ => sMean),
      (r.wind_speed_10m).orElse (fun _ => wMean)⟩)

/-- `_align_weather_to_future(future_df, weather_df, forecast_year)`. -/
def align_weather_to_future (future : List HourTs) (w : List WxRow)
    (forecastYear : Nat) : List FutureRow :=
  fillMeans (mergeWeather future (applyYearShift w forecastYear))

/-- One row of the Prophet prediction frame: timestamp, point estimate and the
two interval bounds (`ds`, `yhat`, `yhat_lower`, `yhat_upper`). -/
structure PredRow where
  ds : HourTs
  yhat : ℚ
  yhat_lower : ℚ
  yhat_upper : ℚ
deriving DecidableEq, Repr

/-- One row of `run_forecast`'s result (`hour_ts`, `yhat`, `yhat_lower`,
`yhat_upper`). -/
structure ForecastRecord where
  hour_ts : HourTs
  yhat : ℚ
  yhat_lower : ℚ
  yhat_upper : ℚ
deriving DecidableEq, Repr

/-- The output shaping of `run_forecast`: keep only prediction rows whose
calendar year is the forecast year, sort ascending by hour, and map to the
result columns. -/
def shapeForecast (forecastYear : Nat) (pred : List PredRow) : List ForecastRecord :=
  let kept := pred.filter (fun r => r.ds.year == forecastYear)
  let sorted := kept.insertionSort (fun a b => a.ds.key ≤ b.ds.key)
  sorted.map (fun r => ⟨r.ds, r.yhat, r.yhat_lower, r.yhat_upper⟩)

/-- `run_forecast`, from future-frame construction onward, with the external
Prophet engine as a parameter (`m.predict(future_df)` — a black box that the
source's contract describes as emitting one prediction row per future-frame
row).  Training-frame preparation and `m.fit` do not influence the shape of
the output frame and are absorbed into the engine parameter. -/
def run_forecast_shape (engine : List FutureRow → List PredRow)
    (forecastYear : Nat) (weather : Option (List WxRow)) : List ForecastRecord :=
  let future := make_future_df forecastYear
  let frame :=
    match weather with
    | some w => if w.isEmpty then plainFuture future else align_weather_to_future future w forecastYear
    | none => plainFuture future
  shapeForecast forecastYear (engine frame)

/-- The weather frame `load_weather_df` yields when the 2025 archive is empty
and the prior-year proxy is used: one cached row per hour of 2024 (8,784 rows,
including all 24 hours of Feb 29); the regressor payloads are immaterial. -/
def weather2024 : List WxRow :=
  (make_future_df 2024).map (fun t => ⟨t, none, none, none, none⟩)

/-- A concrete instance of the external Prophet engine contract stated in the
source: one prediction row per future-frame row, carrying that row's
timestamp. -/
def engine0 : List FutureRow → List PredRow :=
  fun rows => rows.map (fun r => ⟨r.ds, 0, 0, 0⟩)

/-! ## `app/services/weather.py` and `app/services/holidays.py` (definitions)

The database is modelled as the explicit list of cached rows; the HTTP
provider response, already decoded from JSON, is a parameter (`payload`).
Postgres `INSERT ... ON CONFLICT DO NOTHING` keyed by the primary key is
modelled by `upsertBy`: rows are inserted one at a time and a row whose key is
already present is skipped (also within one chunk, so the 500/1000-row
chunking of the source is behaviour-identical).  Each fetch function returns
the new database state together with the number of upstream provider fetches
it issued (0 or 1). -/

def upsertBy {α κ : Type} [DecidableEq κ] (key : α → κ) (db rows : List α) : List α :=
  rows.foldl (fun acc r => if acc.any (fun x => key x == key r) then acc else acc ++ [r]) db

/-- A row of the `weather_observations` table. -/
structure WeatherObservation where
  ts : HourTs
  country_code : String
  temperature_2m : Option ℚ
  solar_radiation : Option ℚ
  wind_speed_10m : Option ℚ
  precipitation : Option ℚ
deriving DecidableEq, Repr

/-- Primary key of `weather_observations`: `(ts, country_code)`. -/
def wKey (r : WeatherObservation) : HourTs × String := (r.ts, r.country_code)

/-- One decoded row of the Open-Meteo hourly payload (a time plus the four
optional measurement arrays, zipped). -/
structure WxPayloadRow where
  ts : HourTs
  temperature_2m : Option ℚ
  solar_radiation : Option ℚ
  wind_speed_10m : Option ℚ
  precipitation : Option ℚ
deriving DecidableEq, Repr

/-- The row constructed by `fetch_and_cache_weather` from one payload entry:
the requested country code is attached. -/
def toObservation (c : String) (p : WxPayloadRow) : WeatherObservation :=
  ⟨p.ts, c, p.temperature_2m, p.solar_radiation, p.wind_speed_10m, p.precipitation⟩

/-- The cached-row count `fetch_and_cache_weather` checks: rows with
`start ≤ ts < end` (that is, timestamps inside the requested year) and the
requested country code. -/
def inYearWeatherCount (db : List WeatherObservation) (year : Nat) (c : String) : Nat :=
  (db.filter (fun r => r.ts.year == year && r.country_code == c)).length

/-- `fetch_and_cache_weather(db, year, country_code)`: skip the API call when
at least 8,700 rows are already cached for the period; otherwise fetch once;
an empty payload (`times` missing) caches nothing; otherwise upsert all
payload rows with the conflict-tolerant insert. -/
def fetch_and_cache_weather (payload : List WxPayloadRow)
    (db : List WeatherObservation) (year : Nat) (c : String) :
    List WeatherObservation × Nat :=
  if 8700 ≤ inYearWeatherCount db year c then (db, 0)
  else if payload.isEmpty then (db, 1)
  else (upsertBy wKey db (payload.map (toObservation c)), 1)

/-- Calling `fetch_and_cache_weather` twice in sequence for the same key with
a deterministic provider; the second component counts the provider fetches. -/
def ensure_twice_weather (payload : List WxPayloadRow)
    (db : List WeatherObservation) (year : Nat) (c : String) :
    List WeatherObservation × Nat :=
  let r1 := fetch_and_cache_weather payload db year c
  let r2 := fetch_and_cache_weather payload r1.1 year c
  (r2.1, r1.2 + r2.2)

/-- A calendar date, modelled (like `HourTs`) as a year plus a day index; the
date lies in the queried range `Jan 1 .. Dec 31` of `year` iff its year
component equals `year`. -/
structure HolidayDate where
  year : Nat
  dayOfYear : Nat
deriving DecidableEq, Repr

/-- A row of the `public_holidays` table. -/
structure PublicHoliday where
  date : HolidayDate
  country_code : String
  name : String
deriving DecidableEq, Repr

/-- Primary key of `public_holidays`: `(date, country_code)`. -/
def hKey (r : PublicHoliday) : HolidayDate × String := (r.date, r.country_code)

/-- Cached-row count checked by `fetch_and_cache_holidays` for the year range
and country code. -/
def inYearHolidayCount (db : List PublicHoliday) (year : Nat) (c : String) : Nat :=
  (db.filter (fun r => r.date.year == year && r.country_code == c)).length

/-- `fetch_and_cache_holidays(db, year, country_code)`: skip the API call when
any row is already cached for the year; an empty payload caches nothing;
otherwise upsert all payload rows (each a decoded date with its resolved
`localName`-or-`name` string). -/
def fetch_and_cache_holidays (payload : List (HolidayDate × String))
    (db : List PublicHoliday) (year : Nat) (c : String) :
    List PublicHoliday × Nat :=
  if 0 < inYearHolidayCount db year c then (db, 0)
  else if payload.isEmpty then (db, 1)
  else (upsertBy hKey db (payload.map (fun p => ⟨p.1, c, p.2⟩)), 1)

/-- Calling `fetch_and_cache_holidays` twice in sequence for the same key. -/
def ensure_twice_holidays (payload : List (HolidayDate × String))
    (db : List PublicHoliday) (year : Nat) (c : String) :
    List PublicHoliday × Nat :=
  let r1 := fetch_and_cache_holidays payload db year c
  let r2 := fetch_and_cache_holidays payload r1.1 year c
  (r2.1, r1.2 + r2.2)

/-- 8,700 cached hourly weather rows of 2025 for country DE. -/
def wDb8700 : List WeatherObservation :=
  (List.range 8700).map (fun i => ⟨⟨2025, i⟩, "DE", none, none, none, none⟩)

/-- A full provider payload: 8,700 distinct in-year hourly rows. -/
def wPayload8700 : List WxPayloadRow :=
  (List.range 8700).map (fun i => ⟨⟨2025, i⟩, none, none, none, none⟩)

/-! ## `app/services/quality.py` (definitions)

`generate_quality_report` is modelled over a `DataFrame` given as a list of
`(ts, value_kw)` rows, with timestamps as hour indices (the normalized series
is hour-aligned, so the `int(total_seconds/3600)` conversion of the source is
exact) and float values as exact rationals.  Python's `round(x, n)` rounds
half to even.  The descriptive-statistics and outlier blocks of the source are
not modelled: no claim refers to them, and they do not influence the fields
modelled here. -/

/-- One row of the normalized DataFrame handed to the quality analyzer. -/
structure QRow where
  ts : Nat
  value_kw : Option ℚ
deriving DecidableEq, Repr

/-- The fields of the serialised quality report that the claims refer to.
For the empty-input report the optional fields are absent. -/
structure QualityReport where
  job_id : String
  total_records : Nat
  coverage_percent : Option ℚ
  missing_hours : Option ℤ
  flat_count : Option Nat
  flat_total_hours : Option Nat
  passed : Bool
deriving DecidableEq, Repr

/-- Floor of a rational (`Int.fdiv` is floored integer division). -/
def floorQ (q : ℚ) : ℤ := q.num.fdiv (q.den : ℤ)

/-- Round to the nearest integer, ties to even — the rounding Python's builtin
`round` uses. -/
def roundHalfEvenQ (q : ℚ) : ℤ :=
  if q - (floorQ q : ℚ) < 1/2 then floorQ q
  else if 1/2 < q - (floorQ q : ℚ) then floorQ q + 1
  else if floorQ q % 2 = 0 then floorQ q else floorQ q + 1

/-- Python's `round(x, 2)`. -/
def pyRound2 (q : ℚ) : ℚ := (roundHalfEvenQ (q * 100) : ℚ) / 100

/-- The null sentinel of the source: `values.fillna(-9999)`. -/
def sentinel : ℚ := -9999

/-- Helper of `rleBy`: the running (current value, count) state of the loop in
`_run_length_encoding`. -/
def rleByGo {α : Type} (mt : α → α → Bool) : α → Nat → List α → List (α × Nat)
  | c, k, [] => [(c, k)]
  | c, k, v :: vs =>
    if mt v c then rleByGo mt c (k + 1) vs
    else (c, k) :: rleByGo mt v 1 vs

/-- `_run_length_encoding(series)`, generic in the equality test: the list of
(value, run length) pairs of maximal runs of consecutive matching values. -/
def rleBy {α : Type} (mt : α → α → Bool) : List α → List (α × Nat)
  | [] => []
  | x :: xs => rleByGo mt x 1 xs

/-- The flat-period accumulation loop of `generate_quality_report`, generic in
the run-keeping condition: fold over the runs, counting kept runs and summing
their lengths. -/
def flatOf {α : Type} (pred : α × Nat → Prop) [DecidablePred pred]
    (runs : List (α × Nat)) : Nat × Nat :=
  runs.foldl (fun acc run => if pred run then (acc.1 + 1, acc.2 + run.2) else acc) (0, 0)

/-- The flat-period computation of `generate_quality_report`: skip when no
non-null value exists; otherwise run-length encode `values.fillna(-9999)`
under float equality and keep runs of length ≥ 3 whose value is not the
sentinel. -/
def flatStats (values : List (Option ℚ)) : Nat × Nat :=
  let clean := values.filterMap id
  if clean.isEmpty then (0, 0)
  else flatOf (fun run => 3 ≤ run.2 ∧ run.1 ≠ sentinel)
    (rleBy (fun a b => a == b) (values.map (fun v => v.getD sentinel)))

/-- Modelled from the spec (for comparison with `flatStats`): the matching
relation of "encode the non-null values, treating nulls as a distinct sentinel
that never matches": two entries match iff both are non-null and equal. -/
def optMatches (a b : Option ℚ) : Bool :=
  match a, b with
  | some x, some y => x == y
  | _, _ => false

/-- Modelled from the spec (for comparison with `flatStats`): flat periods as
the spec describes them — runs of consecutive equal non-null values (a null
never matching anything) of length ≥ 3, reported as (count, total hours). -/
def specFlatStats (values : List (Option ℚ)) : Nat × Nat :=
  flatOf (fun run => 3 ≤ run.2 ∧ run.1.isSome) (rleBy optMatches values)

/-- `generate_quality_report(df, job_id)`, restricted to the fields the claims
refer to: the empty-report edge case, span/coverage/missing-hours, the
flat-period summary, and the pass flag. -/
def generate_quality_report (df : List QRow) (job_id : String) : QualityReport :=
  if df.isEmpty then ⟨job_id, 0, none, none, none, none, false⟩
  else
    let ts := df.map (fun r => r.ts)
    let values := df.map (fun r => r.value_kw)
    let tsMin := ts.foldl Nat.min (ts.headD 0)
    let tsMax := ts.foldl Nat.max (ts.headD 0)
    let span_hours := Nat.max (tsMax - tsMin + 1) 1
    let non_null := (values.filterMap id).length
    let missing_hours : ℤ := (span_hours : ℤ) - (non_null : ℤ)
    let coverage := pyRound2 ((non_null : ℚ) / (span_hours : ℚ) * 100)
    let flats := flatStats values
    ⟨job_id, df.length, some coverage, some missing_hours, some flats.1, some flats.2,
      decide ((95 : ℚ) ≤ coverage)⟩

/-- The span formula as the claim words it: hours between the first and last
timestamp inclusive (computed from the extrema of the timestamp column). -/
def spanSpec (df : List QRow) : Nat :=
  ((df.map (fun r => r.ts)).max?.getD 0 - (df.map (fun r => r.ts)).min?.getD 0) + 1

/-- The non-null count of the value column. -/
def nonNullCount (df : List QRow) : Nat :=
  ((df.map (fun r => r.value_kw)).filterMap id).length

/-- An hour grid: `n` consecutive hourly timestamps starting at `s`. -/
def hourGrid (s n : Nat) : List Nat := (List.range n).map (fun i => s + i)

/-- A gap-free non-leap year of hourly rows, all non-null. -/
def qDf8760 : List QRow := (List.range 8760).map (fun i => ⟨i, some 1⟩)

/-! ## `app/services/parser.py` (definitions)

`parse_load_profile` is modelled from the column-detection step onward.  The
byte decoders (`pd.read_csv`, `pd.read_excel`) are external library code; the
decoded table (column names plus cell rows) is the input of the model, and the
two pandas coercions are oracle parameters: `tsP` models
`pd.to_datetime(..., dayfirst=True, errors="coerce")` (cell to instant, here
an integer minute count) and `numP` models
`pd.to_numeric(..., errors="coerce")`.  `sort_values` is modelled as an
insertion sort; the claims do not depend on the order among equal keys. -/

/-- `_TIMESTAMP_HINTS`. -/
def tsHints : List String := ["time", "date", "ts", "datetime", "zeitstempel", "datum"]

/-- `_VALUE_HINTS`. -/
def valueHints : List String := ["kw", "mw", "power", "load", "value", "leistung", "verbrauch", "energie"]

/-- `_ENERGY_HINTS`. -/
def energyHints : List String := ["kwh", "mwh"]

/-- Substring test on character lists (Python's `pat in s`). -/
def listContainsSub {α : Type} [BEq α] : List α → List α → Bool
  | [], pat => pat.isEmpty
  | a :: rest, pat => pat.isPrefixOf (a :: rest) || listContainsSub rest pat

/-- The lowercased character sequence of a string (`col.lower()`). -/
def lowerStr (s : String) : List Char := s.toList.map Char.toLower

/-- `hint in col.lower()` — the hint literals are already lowercase. -/
def hintIn (hint col : String) : Bool := listContainsSub (lowerStr col) hint.toList

/-- `_detect_column(columns, hints)`: the first column whose lowercased name
contains any of the hints. -/
def detectColumn (columns hints : List String) : Option String :=
  columns.find? (fun col => hints.any (fun hint => hintIn hint col))

/-- A decoded table: the header names and the cell rows. -/
structure Table (C : Type) where
  cols : List String
  rows : List (List C)

/-- `df[c]` for one row: the cell under the first column named `c`. -/
def getCell {C : Type} (t : Table C) (row : List C) (c : String) : Option C :=
  row.get? (t.cols.indexOf c)

/-- The timestamp column: the detected one, or — fallback with a warning —
the first column. -/
def chosenTsCol {C : Type} (t : Table C) : String :=
  (detectColumn t.cols tsHints).getD (t.cols.headD "")

/-- The non-timestamp columns (`[c for c in cols if c != ts_col]`). -/
def remainingCols {C : Type} (t : Table C) : List String :=
  t.cols.filter (fun c => c != chosenTsCol t)

/-- The value column: a hint match among the remaining columns; else, when
exactly one column remains, that column (with a warning); else undetectable. -/
def chosenValueCol {C : Type} (t : Table C) : Option String :=
  match detectColumn (remainingCols t) valueHints with
  | some v => some v
  | none =>
    if (remainingCols t).length = 1 then some ((remainingCols t).headD "") else none

/-- One record of the parser result: a timestamp (minutes, tz-naive) and a
possibly-missing power value. -/
structure ParsedRow where
  ts : ℤ
  value_kw : Option ℚ
deriving DecidableEq, Repr

/-- pandas `Series.median()`: middle element of the sorted values, or the mean
of the two middle elements for an even count. -/
def medianQ (l : List ℚ) : ℚ :=
  let s := List.insertionSort (fun a b : ℚ => a ≤ b) l
  if s.length % 2 = 1 then s.getD (s.length / 2) 0
  else ((s.getD (s.length / 2 - 1) 0) + (s.getD (s.length / 2) 0)) / 2

/-- Consecutive gaps of a timestamp list, in minutes
(`ts_series.sort_values().diff().dropna()`). -/
def diffsMinutes (ts : List ℤ) : List ℚ :=
  ((List.insertionSort (fun a b : ℤ => a ≤ b) ts).zip
    (List.insertionSort (fun a b : ℤ => a ≤ b) ts).tail).map
      (fun p => ((p.2 - p.1 : ℤ) : ℚ))

/-- `_detect_interval_minutes`: the median inter-sample gap in minutes, 60
when there are no gaps, and never below 1. -/
def detectIntervalMinutes (ts : List ℤ) : ℚ :=
  let deltas := diffsMinutes ts
  if deltas.isEmpty then 60 else max (medianQ deltas) 1

/-- The kWh/MWh → kW conversion block: when the value column name carries an
energy hint, divide by the dominant sampling interval in hours (MWh scaled by
1000); otherwise leave the rows unchanged. -/
def convertEnergy (valueCol : String) (rows : List ParsedRow) : List ParsedRow :=
  if energyHints.any (fun hh => hintIn hh valueCol) then
    let hoursPerInterval := detectIntervalMinutes (rows.map (fun r => r.ts)) / 60
    if hintIn "mwh" valueCol then
      rows.map (fun r => ⟨r.ts, r.value_kw.map (fun v => v * 1000 / hoursPerInterval)⟩)
    else
      rows.map (fun r => ⟨r.ts, r.value_kw.map (fun v => v / hoursPerInterval)⟩)
  else rows

/-- `parse_load_profile(data, filename)` from the decoded table onward: the
empty check, column detection with its fallbacks and failure, timestamp
coercion with the all-failed check, row assembly dropping rows with
unparseable timestamps, the sort by timestamp, the residual-empty check, and
the energy-unit conversion. -/
def parse_load_profile {C : Type} (tsP : C → Option ℤ) (numP : C → Option ℚ)
    (t : Table C) : Except String (List ParsedRow) :=
  if t.rows.isEmpty || t.cols.isEmpty then Except.error "Parsed file is empty"
  else
    match chosenValueCol t with
    | none => Except.error "Cannot detect value column"
    | some valueCol =>
      if (t.rows.map (fun row => (getCell t row (chosenTsCol t)).bind tsP)).all
          (fun o => o.isNone) then
        Except.error "Could not parse any timestamps"
      else
        if (List.insertionSort (fun a b : ParsedRow => a.ts ≤ b.ts)
            (t.rows.filterMap (fun row =>
              match (getCell t row (chosenTsCol t)).bind tsP with
              | none => none
              | some ts => some (⟨ts, (getCell t row valueCol).bind numP⟩ : ParsedRow)))).isEmpty then
          Except.error "No valid rows remain after parsing"
        else
          Except.ok (convertEnergy valueCol
            (List.insertionSort (fun a b : ParsedRow => a.ts ≤ b.ts)
              (t.rows.filterMap (fun row =>
                match (getCell t row (chosenTsCol t)).bind tsP with
                | none => none
                | some ts => some (⟨ts, (getCell t row valueCol).bind numP⟩ : ParsedRow)))))

/-! ## `app/workers/tasks.py` (definitions)

`_run_pipeline` is modelled as a state transition on the job row.  Each stage
is given by the status it persists before its work starts together with the
outcome of that work — `Except.ok ()` or `Except.error msg`, where `msg` is
`str(exc)` of the exception the stage raised.  `run_pipeline` returns the
final job row and the pipeline's own outcome (the `raise` at the end of the
`except` block re-raises the stage's exception to the Celery dispatcher). -/

/-- `JobStatus` (`app/models/job.py`). -/
inductive JobStatus where
  | queued
  | parsing
  | normalizing
  | enriching
  | quality_check
  | forecasting
  | complete
  | failed
deriving DecidableEq, Repr

/-- The job columns `_run_pipeline` mutates. -/
structure Job where
  status : JobStatus
  error_message : Option String
  completed_at : Option Nat
deriving DecidableEq, Repr

/-- The `try` block: run the stages in order; each stage first persists its
status, then performs its work; the first exception aborts the sequence. -/
def runStages : Job → List (JobStatus × Except String Unit) → Job × Except String Unit
  | job, [] => (job, Except.ok ())
  | job, (st, act) :: rest =>
    match act with
    | Except.error e => ({ job with status := st }, Except.error e)
    | Except.ok _ => runStages { job with status := st } rest

/-- `_run_pipeline(job_id)` after the job row is loaded: on success mark the
job complete and stamp `completed_at`; on an exception mark it failed, store
the exception text as `error_message`, stamp `completed_at`, and re-raise. -/
def run_pipeline (stages : List (JobStatus × Except String Unit)) (now : Nat)
    (job : Job) : Job × Except String Unit :=
  match runStages job stages with
  | (j, Except.error e) =>
    ({ j with status := JobStatus.failed, error_message := some e, completed_at := some now },
      Except.error e)
  | (j, Except.ok _) =>
    ({ j with status := JobStatus.complete, completed_at := some now }, Except.ok ())

/-! ## Calendar lemmas -/

theorem daysInMonth_pos (y m : Nat) : 0 < daysInMonth y m := by
  unfold daysInMonth
  split
  · split <;> omega
  · split <;> omega

theorem dayIdxToMDGo_here (y m d fuel : Nat) (h : d < daysInMonth y m) :
    dayIdxToMDGo y m d fuel = (m, d + 1) := by
  cases fuel with
  | zero => rfl
  | succ fuel => simp [dayIdxToMDGo, h]

theorem dayIdxToMDGo_skip (y : Nat) :
    ∀ k m r fuel, dayIdxToMDGo y m (daysFromTo y m k + r) (k + fuel) =
      dayIdxToMDGo y (m + k) r fuel := by
  intro k
  induction k with
  | zero => intro m r fuel; simp [daysFromTo]
  | succ k ih =>
    intro m r fuel
    have hk : k + 1 + fuel = (k + fuel) + 1 := by omega
    rw [hk]
    show dayIdxToMDGo y m (daysFromTo y m (k + 1) + r) ((k + fuel) + 1) = _
    rw [daysFromTo]
    have hnotlt : ¬ (daysInMonth y m + daysFromTo y (m + 1) k + r < daysInMonth y m) := by
      omega
    simp only [dayIdxToMDGo, hnotlt, if_false]
    have harith : daysInMonth y m + daysFromTo y (m + 1) k + r - daysInMonth y m =
        daysFromTo y (m + 1) k + r := by omega
    rw [harith, ih (m + 1) r fuel]
    congr 1
    omega

theorem dayIdxToMD_roundtrip (y m d : Nat) (hm1 : 1 ≤ m) (hm2 : m ≤ 12)
    (hd1 : 1 ≤ d) (hd2 : d ≤ daysInMonth y m) :
    dayIdxToMD y (daysBeforeMonth y m + (d - 1)) = (m, d) := by
  unfold dayIdxToMD daysBeforeMonth
  have h11 : 11 = (m - 1) + (12 - m) := by omega
  rw [h11, dayIdxToMDGo_skip y (m - 1) 1 (d - 1) (12 - m)]
  have hm : 1 + (m - 1) = m := by omega
  rw [hm]
  have hdlt : d - 1 < daysInMonth y m := by omega
  rw [dayIdxToMDGo_here y m (d - 1) (12 - m) hdlt]
  congr 1
  omega

/-- `shiftToYear` in terms of calendar components: for any valid
(month, day, hour) triple of the source year, the shifted timestamp keeps the
month, day and hour, except that Feb 29 is sent to Feb 28 of the target year
— unconditionally, whether or not the target year is a leap year. -/
theorem shiftToYear_mkTs (y Y m d h : Nat) (hm1 : 1 ≤ m) (hm2 : m ≤ 12)
    (hd1 : 1 ≤ d) (hd2 : d ≤ daysInMonth y m) (hh : h < 24) :
    shiftToYear Y (mkTs y m d h) =
      if m = 2 ∧ d = 29 then mkTs Y 2 28 h else mkTs Y m d h := by
  unfold shiftToYear mkTs
  simp only
  have hdiv : (24 * (daysBeforeMonth y m + (d - 1)) + h) / 24 =
      daysBeforeMonth y m + (d - 1) := by
    rw [Nat.add_comm, Nat.add_mul_div_left _ _ (by omega : 0 < 24), Nat.div_eq_of_lt hh]
    omega
  have hmod : (24 * (daysBeforeMonth y m + (d - 1)) + h) % 24 = h := by
    rw [Nat.add_comm, Nat.add_mul_mod_self_left, Nat.mod_eq_of_lt hh]
  rw [hdiv, hmod, dayIdxToMD_roundtrip y m d hm1 hm2 hd1 hd2]

/-! ## Claim theorems: proxy-year calendar alignment -/

/-- C6 counterexample: the claim says that when the target year is a leap year,
a Feb-29 enrichment timestamp is preserved as Feb-29 of the target year.  The
code maps Feb 29, 2020 to Feb 28 of the leap target year 2024, not to Feb 29. -/
theorem c6_counterexample :
    isLeap 2024 = true ∧
    shiftToYear 2024 (mkTs 2020 2 29 0) = mkTs 2024 2 28 0 ∧
    shiftToYear 2024 (mkTs 2020 2 29 0) ≠ mkTs 2024 2 29 0 := by
  refine ⟨rfl, by decide, by decide⟩

/-- C6 (amended): the alignment step shifts each enrichment timestamp's
month/day/hour onto the target year, mapping Feb-29 timestamps to Feb-28 of
the target year unconditionally — also when the target year is a leap year. -/
theorem c6_shift_calendar_alignment (y Y m d h : Nat) (hm1 : 1 ≤ m) (hm2 : m ≤ 12)
    (hd1 : 1 ≤ d) (hd2 : d ≤ daysInMonth y m) (hh : h < 24) :
    shiftToYear Y (mkTs y m d h) =
      if m = 2 ∧ d = 29 then mkTs Y 2 28 h else mkTs Y m d h :=
  shiftToYear_mkTs y Y m d h hm1 hm2 hd1 hd2 hh

/-- C6 witness: the amended statement at two concrete inputs — Mar 15, 10:00 of
2020 keeps its calendar components in 2023, and Feb 29, 2020 lands on Feb 28
of leap year 2024. -/
theorem c6_shift_calendar_alignment_witness :
    shiftToYear 2023 (mkTs 2020 3 15 10) = mkTs 2023 3 15 10 ∧
    shiftToYear 2024 (mkTs 2020 2 29 0) = mkTs 2024 2 28 0 := by
  constructor
  · have h := c6_shift_calendar_alignment 2020 2023 3 15 10 (by decide) (by decide)
      (by decide) (by decide) (by decide)
    simpa using h
  · have h := c6_shift_calendar_alignment 2020 2024 2 29 0 (by decide) (by decide)
      (by decide) (by decide) (by decide)
    simpa using h

/-- C10: whether weather timestamps are shifted is decided solely by the year
of the first weather row: if that year equals the forecast year nothing is
shifted (whatever the other rows' years are); if it differs, every row is
shifted. -/
theorem c10_shift_all_or_nothing (r0 : WxRow) (rest : List WxRow) (Y : Nat) :
    (r0.ts.year = Y → applyYearShift (r0 :: rest) Y = r0 :: rest) ∧
    (r0.ts.year ≠ Y → applyYearShift (r0 :: rest) Y =
      (r0 :: rest).map (fun r => r.shifted Y)) := by
  constructor
  · intro h
    simp [applyYearShift, h]
  · intro h
    simp [applyYearShift, h]

/-- C10 witness: a two-row weather frame spanning years 2025 and 1999.  With
the 2025 row first and forecast year 2025, nothing is shifted even though the
second row's year differs; with the 1999 row first, every row is shifted. -/
theorem c10_shift_all_or_nothing_witness :
    applyYearShift
      [⟨⟨2025, 0⟩, none, none, none, none⟩, ⟨⟨1999, 5⟩, none, none, none, none⟩] 2025 =
      [⟨⟨2025, 0⟩, none, none, none, none⟩, ⟨⟨1999, 5⟩, none, none, none, none⟩] ∧
    applyYearShift
      [⟨⟨1999, 5⟩, none, none, none, none⟩, ⟨⟨2025, 0⟩, none, none, none, none⟩] 2025 =
      ([⟨⟨1999, 5⟩, none, none, none, none⟩,
        ⟨⟨2025, 0⟩, none, none, none, none⟩] : List WxRow).map (fun r => r.shifted 2025) := by
  constructor
  · exact (c10_shift_all_or_nothing ⟨⟨2025, 0⟩, none, none, none, none⟩
      [⟨⟨1999, 5⟩, none, none, none, none⟩] 2025).1 rfl
  · exact (c10_shift_all_or_nothing ⟨⟨1999, 5⟩, none, none, none, none⟩
      [⟨⟨2025, 0⟩, none, none, none, none⟩] 2025).2 (by decide)

/-! ## Claim theorems: forecast output shape (C1) -/

theorem two_le_countP_of_mem {α : Type} (l : List α) (p : α → Bool) (a b : α)
    (hab : a ≠ b) (ha : a ∈ l) (hb : b ∈ l)
    (hpa : p a = true) (hpb : p b = true) : 2 ≤ l.countP p := by
  rw [List.countP_eq_length_filter]
  have hsub : [a, b] ⊆ l.filter p := by
    intro x hx
    simp only [List.mem_cons, List.not_mem_nil, or_false] at hx
    rcases hx with rfl | rfl
    · exact List.mem_filter.2 ⟨ha, hpa⟩
    · exact List.mem_filter.2 ⟨hb, hpb⟩
  have hnd2 : ([a, b] : List α).Nodup := by simp [hab]
  simpa using (hnd2.subperm hsub).length_le

theorem applyYearShift_of_ne (r0 : WxRow) (rest : List WxRow) (Y : Nat)
    (h : r0.ts.year ≠ Y) :
    applyYearShift (r0 :: rest) Y = (r0 :: rest).map (fun r => r.shifted Y) := by
  simp [applyYearShift, h]

theorem countP_mergeBlock_eq (w : List WxRow) (f : HourTs) (hne : w.filter (fun r => r.ts == f) ≠ []) :
    (mergeBlock w f).countP (fun row => row.ds == f) =
      (w.filter (fun r => r.ts == f)).length := by
  unfold mergeBlock
  rcases hms : w.filter (fun r => r.ts == f) with _ | ⟨m, ms⟩
  · exact absurd hms hne
  · have hall : ∀ r ∈ (m :: ms : List WxRow),
        ((fun row : FutureRow => row.ds == f) ∘
          (fun r : WxRow =>
            (⟨f, r.temperature_2m, r.solar_radiation, r.wind_speed_10m⟩ : FutureRow))) r = true := by
      intro r _
      simp [Function.comp]
    rw [hms, List.countP_map, List.countP_eq_length.2 hall]

theorem countP_mergeWeather_ge (future : List HourTs) (w : List WxRow) (f : HourTs)
    (hf : f ∈ future) (hw : 2 ≤ (w.filter (fun r => r.ts == f)).length) :
    2 ≤ (mergeWeather future w).countP (fun row => row.ds == f) := by
  obtain ⟨s, t, rfl⟩ := List.append_of_mem hf
  unfold mergeWeather
  rw [List.flatMap_append, List.flatMap_cons, List.countP_append, List.countP_append]
  have hne : w.filter (fun r => r.ts == f) ≠ [] := by
    intro h
    rw [h] at hw
    simp at hw
  have := countP_mergeBlock_eq w f hne
  omega

/-- C1 failing case: forecasting the non-leap year 2025 with the prior-year
(leap) weather proxy.  The year shift maps both Feb 28 and Feb 29 of 2024 onto
Feb 28 of 2025, so the left merge duplicates every Feb-28 future hour and
`run_forecast`'s output contains at least two rows for the hour
Feb 28, 2025, 00:00 — the claimed "exactly one row per hour of Y" (and the
8,760-row count for a non-leap year) fails.  The module's own docstring
promises an 8,760-hour vector in this case. -/
theorem c1_duplicate_feb28_rows :
    isLeap 2025 = false ∧
    2 ≤ (run_forecast_shape engine0 2025 (some weather2024)).countP
      (fun r => r.hour_ts == mkTs 2025 2 28 0) := by
  refine ⟨rfl, ?_⟩
  have hFval : mkTs 2025 2 28 0 = (⟨2025, 1392⟩ : HourTs) := by decide
  rw [hFval]
  -- the weather frame is non-empty, its first row's year is 2024 ≠ 2025, so
  -- the whole frame is shifted onto 2025
  have hshift : applyYearShift weather2024 2025 =
      weather2024.map (fun r => r.shifted 2025) := by
    obtain ⟨k, hk⟩ : ∃ k, hoursInYear 2024 = k + 1 := ⟨8783, by decide⟩
    unfold weather2024 make_future_df
    rw [hk, List.range_succ_eq_map, List.map_cons, List.map_cons]
    exact applyYearShift_of_ne _ _ 2025 (by decide)
  -- at least two shifted weather rows carry the timestamp Feb 28, 2025, 00:00
  have hcount : 2 ≤ ((applyYearShift weather2024 2025).filter
      (fun r => r.ts == (⟨2025, 1392⟩ : HourTs))).length := by
    rw [← List.countP_eq_length_filter, hshift]
    unfold weather2024 make_future_df
    rw [List.map_map, List.map_map, List.countP_map]
    refine two_le_countP_of_mem _ _ 1392 1416 (by decide) ?_ ?_ (by decide) (by decide)
    · rw [show hoursInYear 2024 = 8784 by decide]
      exact List.mem_range.2 (by norm_num)
    · rw [show hoursInYear 2024 = 8784 by decide]
      exact List.mem_range.2 (by norm_num)
  -- hence the merged future frame holds at least two rows for that hour
  have hmerge : 2 ≤ (mergeWeather (make_future_df 2025)
      (applyYearShift weather2024 2025)).countP
        (fun row => row.ds == (⟨2025, 1392⟩ : HourTs)) := by
    refine countP_mergeWeather_ge _ _ _ ?_ hcount
    unfold make_future_df
    refine List.mem_map.2 ⟨1392, ?_, rfl⟩
    rw [show hoursInYear 2025 = 8760 by decide]
    exact List.mem_range.2 (by norm_num)
  -- mean-filling, the engine, the year filter, the sort and the final column
  -- selection preserve the number of rows carrying this hour
  have hfill : ∀ rows : List FutureRow,
      (fillMeans rows).countP (fun row => row.ds == (⟨2025, 1392⟩ : HourTs)) =
        rows.countP (fun row => row.ds == (⟨2025, 1392⟩ : HourTs)) := by
    intro rows
    unfold fillMeans
    rw [List.countP_map]
    rfl
  have hengine : ∀ rows : List FutureRow,
      (engine0 rows).countP (fun row => row.ds == (⟨2025, 1392⟩ : HourTs)) =
        rows.countP (fun row => row.ds == (⟨2025, 1392⟩ : HourTs)) := by
    intro rows
    unfold engine0
    rw [List.countP_map]
    rfl
  have hshape : ∀ pred : List PredRow,
      pred.countP (fun row => row.ds == (⟨2025, 1392⟩ : HourTs)) ≤
        (shapeForecast 2025 pred).countP
          (fun r => r.hour_ts == (⟨2025, 1392⟩ : HourTs)) := by
    intro pred
    unfold shapeForecast
    rw [List.countP_map]
    have hperm := List.perm_insertionSort
      (fun a b : PredRow => a.ds.key ≤ b.ds.key)
      (pred.filter (fun r => r.ds.year == 2025))
    rw [show ((fun r : ForecastRecord => r.hour_ts == (⟨2025, 1392⟩ : HourTs)) ∘
        (fun r : PredRow =>
          (⟨r.ds, r.yhat, r.yhat_lower, r.yhat_upper⟩ : ForecastRecord))) =
        (fun r : PredRow => r.ds == (⟨2025, 1392⟩ : HourTs)) from rfl]
    rw [hperm.countP_eq, List.countP_filter]
    apply le_of_eq
    apply List.countP_congr
    intro r _
    cases hp : (r.ds == (⟨2025, 1392⟩ : HourTs)) with
    | true =>
      have : r.ds = (⟨2025, 1392⟩ : HourTs) := by simpa using hp
      simp [this]
    | false => simp [hp]
  calc 2 ≤ (mergeWeather (make_future_df 2025)
        (applyYearShift weather2024 2025)).countP
          (fun row => row.ds == (⟨2025, 1392⟩ : HourTs)) := hmerge
    _ = (fillMeans (mergeWeather (make_future_df 2025)
        (applyYearShift weather2024 2025))).countP
          (fun row => row.ds == (⟨2025, 1392⟩ : HourTs)) := (hfill _).symm
    _ = (engine0 (fillMeans (mergeWeather (make_future_df 2025)
        (applyYearShift weather2024 2025)))).countP
          (fun row => row.ds == (⟨2025, 1392⟩ : HourTs)) := (hengine _).symm
    _ ≤ _ := by
      have h := hshape (engine0 (fillMeans (mergeWeather (make_future_df 2025)
        (applyYearShift weather2024 2025))))
      have hne : weather2024.isEmpty = false := by
        obtain ⟨k, hk⟩ : ∃ k, hoursInYear 2024 = k + 1 := ⟨8783, by decide⟩
        unfold weather2024 make_future_df
        rw [hk, List.range_succ_eq_map, List.map_cons, List.map_cons]
        rfl
      unfold run_forecast_shape align_weather_to_future
      simp only [hne, Bool.false_eq_true, if_false]
      exact h

/-! ## Enrichment-cache lemmas and claim theorems (C5) -/

theorem upsertBy_cons {α κ : Type} [DecidableEq κ] (key : α → κ)
    (db : List α) (a : α) (rest : List α) :
    upsertBy key db (a :: rest) =
      upsertBy key (if db.any (fun x => key x == key a) then db else db ++ [a]) rest := rfl

theorem mem_upsertBy_of_mem {α κ : Type} [DecidableEq κ] (key : α → κ)
    (rows : List α) : ∀ (db : List α) (x : α), x ∈ db → x ∈ upsertBy key db rows := by
  induction rows with
  | nil => intro db x hx; exact hx
  | cons a rest ih =>
    intro db x hx
    rw [upsertBy_cons]
    apply ih
    by_cases h : db.any (fun y => key y == key a)
    · rw [if_pos h]; exact hx
    · rw [if_neg h]; exact List.mem_append_left _ hx

theorem key_present_upsertBy {α κ : Type} [DecidableEq κ] (key : α → κ)
    (rows : List α) : ∀ (db : List α) (r : α), r ∈ rows →
      ∃ x ∈ upsertBy key db rows, key x = key r := by
  induction rows with
  | nil => intro db r hr; cases hr
  | cons a rest ih =>
    intro db r hr
    rcases List.mem_cons.1 hr with rfl | hr
    · rw [upsertBy_cons]
      by_cases h : db.any (fun y => key y == key r)
      · obtain ⟨x, hx, hkx⟩ := List.any_eq_true.1 h
        rw [if_pos h]
        exact ⟨x, mem_upsertBy_of_mem key rest db x hx, by simpa using hkx⟩
      · rw [if_neg h]
        exact ⟨r, mem_upsertBy_of_mem key rest _ r (by simp), rfl⟩
    · rw [upsertBy_cons]
      by_cases h : db.any (fun y => key y == key a)
      · rw [if_pos h]; exact ih db r hr
      · rw [if_neg h]; exact ih (db ++ [a]) r hr

theorem inYearWeatherCount_upsert_ge (payload : List WxPayloadRow)
    (db : List WeatherObservation) (year : Nat) (c : String)
    (hnd : (payload.map WxPayloadRow.ts).Nodup)
    (hy : ∀ p ∈ payload, p.ts.year = year) :
    payload.length ≤
      inYearWeatherCount (upsertBy wKey db (payload.map (toObservation c))) year c := by
  have hpres : payload.map WxPayloadRow.ts ⊆
      ((upsertBy wKey db (payload.map (toObservation c))).filter
        (fun r => r.ts.year == year && r.country_code == c)).map WeatherObservation.ts := by
    intro t ht
    obtain ⟨p, hp, rfl⟩ := List.mem_map.1 ht
    obtain ⟨x, hx, hkx⟩ := key_present_upsertBy wKey (payload.map (toObservation c)) db
      (toObservation c p) (List.mem_map_of_mem _ hp)
    have hx_ts : x.ts = p.ts := congrArg Prod.fst hkx
    have hx_c : x.country_code = c := congrArg Prod.snd hkx
    refine List.mem_map.2 ⟨x, List.mem_filter.2 ⟨hx, ?_⟩, hx_ts⟩
    simp [hx_ts, hx_c, hy p hp]
  have hlen := (hnd.subperm hpres).length_le
  simpa [inYearWeatherCount] using hlen

theorem inYearHolidayCount_upsert_pos (payload : List (HolidayDate × String))
    (db : List PublicHoliday) (year : Nat) (c : String)
    (hne : payload ≠ []) (hy : ∀ p ∈ payload, (Prod.fst p).year = year) :
    1 ≤ inYearHolidayCount
      (upsertBy hKey db (payload.map (fun p => ⟨p.1, c, p.2⟩))) year c := by
  obtain ⟨p0, hp0⟩ := List.exists_mem_of_ne_nil payload hne
  obtain ⟨x, hx, hkx⟩ := key_present_upsertBy hKey
    (payload.map (fun p => (⟨p.1, c, p.2⟩ : PublicHoliday))) db
    ⟨p0.1, c, p0.2⟩ (List.mem_map_of_mem _ hp0)
  have hx_d : x.date = p0.1 := congrArg Prod.fst hkx
  have hx_c : x.country_code = c := congrArg Prod.snd hkx
  have hmem : x ∈ (upsertBy hKey db (payload.map (fun p => ⟨p.1, c, p.2⟩))).filter
      (fun r => r.date.year == year && r.country_code == c) := by
    refine List.mem_filter.2 ⟨hx, ?_⟩
    simp [hx_d, hx_c, hy p0 hp0]
  have : 0 < ((upsertBy hKey db (payload.map (fun p => ⟨p.1, c, p.2⟩))).filter
      (fun r => r.date.year == year && r.country_code == c)).length :=
    List.length_pos.2 (List.ne_nil_of_mem hmem)
  simpa [inYearHolidayCount] using this

/-- C5 counterexample: the claim says two sequential `ensure_cached` calls for
one key issue at most one upstream fetch.  With a provider whose payload is
empty (`times` absent), the first call fetches, caches nothing, and the second
call fetches again: two fetches. -/
theorem c5_counterexample :
    ¬ ((ensure_twice_weather [] [] 2025 "DE").2 ≤ 1) := by decide

/-- C5 (amended): `ensure_cached` is a no-op (no fetch, no writes) whenever
the existing cached row count meets the key's threshold — at least 8,700
in-year rows for weather, at least one row for holidays; and two sequential
calls issue at most one fetch provided the provider payload itself meets the
threshold (at least 8,700 distinct in-year hourly rows for weather, a
non-empty in-year payload for holidays).  When the payload is below the
threshold the second call fetches again (see the counterexample). -/
theorem c5_cache_threshold :
    (∀ (payload : List WxPayloadRow) (db : List WeatherObservation) (year : Nat) (c : String),
      8700 ≤ inYearWeatherCount db year c →
        fetch_and_cache_weather payload db year c = (db, 0)) ∧
    (∀ (payload : List WxPayloadRow) (db : List WeatherObservation) (year : Nat) (c : String),
      8700 ≤ payload.length → (payload.map WxPayloadRow.ts).Nodup →
      (∀ p ∈ payload, p.ts.year = year) →
        (ensure_twice_weather payload db year c).2 ≤ 1) ∧
    (∀ (payload : List (HolidayDate × String)) (db : List PublicHoliday) (year : Nat) (c : String),
      1 ≤ inYearHolidayCount db year c →
        fetch_and_cache_holidays payload db year c = (db, 0)) ∧
    (∀ (payload : List (HolidayDate × String)) (db : List PublicHoliday) (year : Nat) (c : String),
      payload ≠ [] → (∀ p ∈ payload, (Prod.fst p).year = year) →
        (ensure_twice_holidays payload db year c).2 ≤ 1) := by
  have hw_noop : ∀ (payload : List WxPayloadRow) (db : List WeatherObservation)
      (year : Nat) (c : String), 8700 ≤ inYearWeatherCount db year c →
        fetch_and_cache_weather payload db year c = (db, 0) := by
    intro payload db year c h
    unfold fetch_and_cache_weather
    rw [if_pos h]
  have hh_noop : ∀ (payload : List (HolidayDate × String)) (db : List PublicHoliday)
      (year : Nat) (c : String), 1 ≤ inYearHolidayCount db year c →
        fetch_and_cache_holidays payload db year c = (db, 0) := by
    intro payload db year c h
    unfold fetch_and_cache_holidays
    rw [if_pos (show 0 < inYearHolidayCount db year c by omega)]
  refine ⟨hw_noop, ?_, hh_noop, ?_⟩
  · intro payload db year c hlen hnd hy
    by_cases h0 : 8700 ≤ inYearWeatherCount db year c
    · have h1 := hw_noop payload db year c h0
      simp [ensure_twice_weather, h1]
    · have hpne : payload ≠ [] := by
        intro h
        rw [h] at hlen
        simp at hlen
      have hie : payload.isEmpty = false := by
        simpa [List.isEmpty_iff] using hpne
      have h1 : fetch_and_cache_weather payload db year c =
          (upsertBy wKey db (payload.map (toObservation c)), 1) := by
        unfold fetch_and_cache_weather
        rw [if_neg h0, if_neg (by simp [hie])]
      have h2c : 8700 ≤ inYearWeatherCount
          (upsertBy wKey db (payload.map (toObservation c))) year c :=
        le_trans hlen (inYearWeatherCount_upsert_ge payload db year c hnd hy)
      have h2 := hw_noop payload _ year c h2c
      simp [ensure_twice_weather, h1, h2]
  · intro payload db year c hpne hy
    by_cases h0 : 1 ≤ inYearHolidayCount db year c
    · have h1 := hh_noop payload db year c h0
      simp [ensure_twice_holidays, h1]
    · have hie : payload.isEmpty = false := by
        simpa [List.isEmpty_iff] using hpne
      have h1 : fetch_and_cache_holidays payload db year c =
          (upsertBy hKey db (payload.map (fun p => ⟨p.1, c, p.2⟩)), 1) := by
        unfold fetch_and_cache_holidays
        rw [if_neg (by omega : ¬ 0 < inYearHolidayCount db year c), if_neg (by simp [hie])]
      have h2c : 1 ≤ inYearHolidayCount
          (upsertBy hKey db (payload.map (fun p => ⟨p.1, c, p.2⟩))) year c :=
        inYearHolidayCount_upsert_pos payload db year c hpne hy
      have h2 := hh_noop payload _ year c h2c
      simp [ensure_twice_holidays, h1, h2]

/-- C5 witness: all four parts of the amended statement at concrete inputs —
a pre-filled weather cache is left untouched with zero fetches, a full-payload
provider is fetched at most once across two calls, a holiday cache with one
row short-circuits, and a one-holiday payload is fetched at most once. -/
theorem c5_cache_threshold_witness :
    fetch_and_cache_weather [] wDb8700 2025 "DE" = (wDb8700, 0) ∧
    (ensure_twice_weather wPayload8700 [] 2025 "DE").2 ≤ 1 ∧
    fetch_and_cache_holidays [] [⟨⟨2025, 0⟩, "DE", "Neujahr"⟩] 2025 "DE" =
      ([⟨⟨2025, 0⟩, "DE", "Neujahr"⟩], 0) ∧
    (ensure_twice_holidays [(⟨⟨2025, 0⟩, "Neujahr"⟩ : HolidayDate × String)] [] 2025 "DE").2 ≤ 1 := by
  refine ⟨?_, ?_, ?_, ?_⟩
  · apply c5_cache_threshold.1
    have hcnt : inYearWeatherCount wDb8700 2025 "DE" = 8700 := by
      unfold inYearWeatherCount wDb8700
      rw [List.filter_eq_self.2 ?_]
      · simp
      · intro x hx
        obtain ⟨i, hi, rfl⟩ := List.mem_map.1 hx
        simp
    omega
  · apply c5_cache_threshold.2.1
    · simp [wPayload8700]
    · unfold wPayload8700
      rw [List.map_map]
      refine List.Nodup.map ?_ (List.nodup_range 8700)
      intro a b hab
      simpa [Function.comp] using hab
    · intro p hp
      obtain ⟨i, hi, rfl⟩ := List.mem_map.1 hp
      rfl
  · apply c5_cache_threshold.2.2.1
    decide
  · apply c5_cache_threshold.2.2.2
    · simp
    · intro p hp
      simp only [List.mem_cons, List.not_mem_nil, or_false] at hp
      rw [hp]

/-! ## Quality-analyzer lemmas and claim theorems (C8) -/

theorem hourGrid_succ (s n : Nat) : hourGrid s (n + 1) = s :: hourGrid (s + 1) n := by
  unfold hourGrid
  rw [List.range_succ_eq_map, List.map_cons, List.map_map]
  have hcomp : ((fun i => s + i) ∘ (fun i => i + 1)) = (fun i => (s + 1) + i) := by
    funext i
    simp [Function.comp]
    omega
  rw [hcomp]
  simp

theorem foldl_min_hourGrid : ∀ (n s acc : Nat),
    (hourGrid s n).foldl Nat.min acc = if n = 0 then acc else Nat.min acc s := by
  intro n
  induction n with
  | zero => intro s acc; simp [hourGrid]
  | succ k ih =>
    intro s acc
    rw [hourGrid_succ, List.foldl_cons, ih (s + 1) (Nat.min acc s)]
    by_cases hk : k = 0
    · simp [hk]
    · rw [if_neg hk, if_neg (Nat.succ_ne_zero k)]
      simp only [Nat.min_def]
      split_ifs <;> omega

theorem foldl_max_hourGrid : ∀ (n s acc : Nat),
    (hourGrid s n).foldl Nat.max acc = if n = 0 then acc else Nat.max acc (s + (n - 1)) := by
  intro n
  induction n with
  | zero => intro s acc; simp [hourGrid]
  | succ k ih =>
    intro s acc
    rw [hourGrid_succ, List.foldl_cons, ih (s + 1) (Nat.max acc s)]
    by_cases hk : k = 0
    · simp [hk]
    · rw [if_neg hk, if_neg (Nat.succ_ne_zero k)]
      simp only [Nat.max_def]
      split_ifs <;> omega

theorem length_filterMap_id_of_isSome {α : Type} :
    ∀ (l : List (Option α)), (∀ v ∈ l, v.isSome) → (l.filterMap id).length = l.length := by
  intro l
  induction l with
  | nil => intro _; rfl
  | cons v rest ih =>
    intro h
    have hv := h v (List.mem_cons_self v rest)
    cases v with
    | none => simp at hv
    | some a =>
      rw [List.filterMap_cons]
      simp only [id]
      rw [List.length_cons, List.length_cons, ih (fun u hu => h u (List.mem_cons_of_mem _ hu))]

theorem min?_getD_cons (a : Nat) (M : List Nat) :
    (a :: M).min?.getD 0 = M.foldl Nat.min a := by
  rw [List.min?_cons']
  rfl

theorem max?_getD_cons (a : Nat) (M : List Nat) :
    (a :: M).max?.getD 0 = M.foldl Nat.max a := by
  rw [List.max?_cons']
  rfl

theorem foldl_min_headD (a : Nat) (M : List Nat) :
    (a :: M).foldl Nat.min ((a :: M).headD 0) = (a :: M).min?.getD 0 := by
  rw [min?_getD_cons]
  simp only [List.headD_cons, List.foldl_cons]
  rw [show Nat.min a a = a by simp [Nat.min_def]]

theorem foldl_max_headD (a : Nat) (M : List Nat) :
    (a :: M).foldl Nat.max ((a :: M).headD 0) = (a :: M).max?.getD 0 := by
  rw [max?_getD_cons]
  simp only [List.headD_cons, List.foldl_cons]
  rw [show Nat.max a a = a by simp [Nat.max_def]]

theorem floorQ_ten_thousand : floorQ 10000 = 10000 := by
  unfold floorQ
  rw [show (10000 : ℚ).num = 10000 by norm_num,
    show ((10000 : ℚ).den : ℤ) = 1 by norm_num]
  exact Int.fdiv_one 10000

theorem pyRound2_hundred : pyRound2 100 = 100 := by
  unfold pyRound2 roundHalfEvenQ
  rw [show (100 : ℚ) * 100 = 10000 by norm_num, floorQ_ten_thousand]
  rw [if_pos (by norm_num : (10000 : ℚ) - ((10000 : ℤ) : ℚ) < 1 / 2)]
  norm_num

/-- C8: for a non-empty normalized series the report's coverage is
(non-null count / span) × 100 rounded to two decimals with span the number of
hours between the first and last timestamp inclusive, `missing_hours` is
span − non-null count, and `passed` holds exactly when the coverage is at
least 95; a gap-free non-leap year of 8,760 non-null hourly rows yields
coverage 100, zero missing hours and a pass. -/
theorem c8_coverage_and_pass (df : List QRow) (jid : String) (hne : df ≠ []) :
    ((generate_quality_report df jid).coverage_percent =
      some (pyRound2 ((nonNullCount df : ℚ) / (spanSpec df : ℚ) * 100)) ∧
    (generate_quality_report df jid).missing_hours =
      some ((spanSpec df : ℤ) - (nonNullCount df : ℤ)) ∧
    ((generate_quality_report df jid).passed = true ↔
      (95 : ℚ) ≤ pyRound2 ((nonNullCount df : ℚ) / (spanSpec df : ℚ) * 100))) ∧
    (∀ s : Nat, df.map (fun r => r.ts) = hourGrid s 8760 →
      (∀ v ∈ df.map (fun r => r.value_kw), v.isSome) →
      (generate_quality_report df jid).coverage_percent = some 100 ∧
      (generate_quality_report df jid).missing_hours = some 0 ∧
      (generate_quality_report df jid).passed = true) := by
  obtain ⟨r0, rest, rfl⟩ := List.exists_cons_of_ne_nil hne
  have hspan : spanSpec (r0 :: rest) =
      Nat.max ((((r0 :: rest).map (fun r => r.ts)).foldl Nat.max
          (((r0 :: rest).map (fun r => r.ts)).headD 0)) -
        (((r0 :: rest).map (fun r => r.ts)).foldl Nat.min
          (((r0 :: rest).map (fun r => r.ts)).headD 0)) + 1) 1 := by
    unfold spanSpec
    rw [List.map_cons, foldl_min_headD, foldl_max_headD]
    exact (Nat.max_eq_left (by omega)).symm
  have hrep : generate_quality_report (r0 :: rest) jid =
      ⟨jid, (r0 :: rest).length,
        some (pyRound2 ((nonNullCount (r0 :: rest) : ℚ) / (spanSpec (r0 :: rest) : ℚ) * 100)),
        some ((spanSpec (r0 :: rest) : ℤ) - (nonNullCount (r0 :: rest) : ℤ)),
        some (flatStats ((r0 :: rest).map (fun r => r.value_kw))).1,
        some (flatStats ((r0 :: rest).map (fun r => r.value_kw))).2,
        decide ((95 : ℚ) ≤
          pyRound2 ((nonNullCount (r0 :: rest) : ℚ) / (spanSpec (r0 :: rest) : ℚ) * 100))⟩ := by
    rw [hspan]
    rfl
  have hgeneral :
      (generate_quality_report (r0 :: rest) jid).coverage_percent =
        some (pyRound2 ((nonNullCount (r0 :: rest) : ℚ) / (spanSpec (r0 :: rest) : ℚ) * 100)) ∧
      (generate_quality_report (r0 :: rest) jid).missing_hours =
        some ((spanSpec (r0 :: rest) : ℤ) - (nonNullCount (r0 :: rest) : ℤ)) ∧
      ((generate_quality_report (r0 :: rest) jid).passed = true ↔
        (95 : ℚ) ≤ pyRound2 ((nonNullCount (r0 :: rest) : ℚ) / (spanSpec (r0 :: rest) : ℚ) * 100)) := by
    rw [hrep]
    exact ⟨rfl, rfl, decide_eq_true_iff⟩
  refine ⟨hgeneral, ?_⟩
  intro s hts hv
  have hlen : (r0 :: rest).length = 8760 := by
    have h := congrArg List.length hts
    simpa [hourGrid] using h
  have hnn : nonNullCount (r0 :: rest) = 8760 := by
    unfold nonNullCount
    rw [length_filterMap_id_of_isSome _ hv, List.length_map]
    exact hlen
  have hsp : spanSpec (r0 :: rest) = 8760 := by
    unfold spanSpec
    rw [hts, show (8760 : Nat) = 8759 + 1 from rfl, hourGrid_succ,
      min?_getD_cons, max?_getD_cons, foldl_min_hourGrid, foldl_max_hourGrid,
      if_neg (by omega : (8759 : Nat) ≠ 0), if_neg (by omega : (8759 : Nat) ≠ 0)]
    simp only [Nat.min_def, Nat.max_def]
    split_ifs <;> omega
  have hcov : pyRound2 ((nonNullCount (r0 :: rest) : ℚ) / (spanSpec (r0 :: rest) : ℚ) * 100) = 100 := by
    rw [hnn, hsp]
    rw [show ((8760 : Nat) : ℚ) / ((8760 : Nat) : ℚ) * 100 = 100 by norm_num]
    exact pyRound2_hundred
  refine ⟨?_, ?_, ?_⟩
  · rw [hgeneral.1, hcov]
  · rw [hgeneral.2.1, hnn, hsp]
    norm_num
  · rw [hgeneral.2.2, hcov]
    norm_num

/-- C8 witness: the full-year instance of the theorem at a concrete gap-free
8,760-row hourly series. -/
theorem c8_coverage_and_pass_witness :
    (generate_quality_report qDf8760 "job-1").coverage_percent = some 100 ∧
    (generate_quality_report qDf8760 "job-1").missing_hours = some 0 ∧
    (generate_quality_report qDf8760 "job-1").passed = true := by
  refine (c8_coverage_and_pass qDf8760 "job-1" ?_).2 0 ?_ ?_
  · unfold qDf8760
    simp
  · unfold qDf8760 hourGrid
    rw [List.map_map]
    refine List.map_congr_left ?_
    intro i _
    simp [Function.comp]
  · intro v hv
    unfold qDf8760 at hv
    rw [List.map_map] at hv
    obtain ⟨i, _, rfl⟩ := List.mem_map.1 hv
    rfl

/-! ## Flat-period lemmas and claim theorems (C9) -/

theorem flatOf_shift {α : Type} (pred : α × Nat → Prop) [DecidablePred pred] :
    ∀ (runs : List (α × Nat)) (a b : Nat),
      runs.foldl (fun acc run => if pred run then (acc.1 + 1, acc.2 + run.2) else acc) (a, b) =
        (a + (flatOf pred runs).1, b + (flatOf pred runs).2) := by
  intro runs
  induction runs with
  | nil => intro a b; simp [flatOf]
  | cons r rest ih =>
    intro a b
    unfold flatOf
    rw [List.foldl_cons, List.foldl_cons]
    simp only []
    by_cases hp : pred r
    · rw [if_pos hp, if_pos hp]
      rw [ih (a + 1) (b + r.2), ih (0 + 1) (0 + r.2)]
      simp [Prod.ext_iff]
      constructor <;> omega
    · rw [if_neg hp, if_neg hp]
      rw [ih a b, ih 0 0]
      simp [Prod.ext_iff, flatOf]

theorem flatOf_cons {α : Type} (pred : α × Nat → Prop) [DecidablePred pred]
    (r : α × Nat) (rest : List (α × Nat)) :
    flatOf pred (r :: rest) =
      ((if pred r then 1 else 0) + (flatOf pred rest).1,
       (if pred r then r.2 else 0) + (flatOf pred rest).2) := by
  unfold flatOf
  rw [List.foldl_cons]
  simp only []
  by_cases hp : pred r
  · rw [if_pos hp, if_pos hp, if_pos hp, flatOf_shift]
    simp [flatOf]
  · rw [if_neg hp, if_neg hp, if_neg hp, flatOf_shift]
    simp [flatOf]

theorem c9_rle_agreement :
    ∀ (vs : List (Option ℚ)), (∀ v ∈ vs, v ≠ some sentinel) →
    ((∀ (x : ℚ) (k : Nat), x ≠ sentinel →
      flatOf (fun run => 3 ≤ run.2 ∧ run.1 ≠ sentinel)
        (rleByGo (fun a b => a == b) x k (vs.map (fun v => v.getD sentinel))) =
      flatOf (fun run => 3 ≤ run.2 ∧ run.1.isSome)
        (rleByGo optMatches (some x) k vs)) ∧
    (∀ (j j' : Nat),
      flatOf (fun run => 3 ≤ run.2 ∧ run.1 ≠ sentinel)
        (rleByGo (fun a b => a == b) sentinel j (vs.map (fun v => v.getD sentinel))) =
      flatOf (fun run => 3 ≤ run.2 ∧ run.1.isSome)
        (rleByGo optMatches none j' vs))) := by
  intro vs
  induction vs with
  | nil =>
    intro _
    constructor
    · intro x k hx
      by_cases h3 : 3 ≤ k
      · simp [rleByGo, flatOf, h3, hx]
      · simp [rleByGo, flatOf, h3]
    · intro j j'
      simp [rleByGo, flatOf]
  | cons v rest ih =>
    intro hclean
    have hrest : ∀ u ∈ rest, u ≠ some sentinel :=
      fun u hu => hclean u (List.mem_cons_of_mem _ hu)
    have ihA := (ih hrest).1
    have ihB := (ih hrest).2
    constructor
    · intro x k hx
      cases v with
      | none =>
        have hnx : ((sentinel == x) = false) := beq_eq_false_iff_ne.2 (Ne.symm hx)
        rw [List.map_cons]
        show flatOf _ (rleByGo (fun a b => a == b) x k
          ((none : Option ℚ).getD sentinel :: rest.map (fun v => v.getD sentinel))) = _
        rw [show (none : Option ℚ).getD sentinel = sentinel from rfl]
        rw [rleByGo, rleByGo]
        rw [if_neg (by simp [hnx]), if_neg (by simp [optMatches])]
        rw [flatOf_cons, flatOf_cons, ihB 1 1]
        by_cases h3 : 3 ≤ k
        · simp [h3, hx]
        · simp [h3]
      | some w =>
        have hw : w ≠ sentinel := by
          intro h
          exact hclean (some w) (List.mem_cons_self _ _) (by rw [h])
        rw [List.map_cons]
        rw [show (some w).getD sentinel = w from rfl]
        rw [rleByGo, rleByGo]
        by_cases hwx : w = x
        · rw [if_pos (by simp [hwx]), if_pos (by simp [optMatches, hwx])]
          exact ihA x (k + 1) hx
        · rw [if_neg (by simp [hwx]), if_neg (by simp [optMatches, hwx])]
          rw [flatOf_cons, flatOf_cons, ihA w 1 hw]
          by_cases h3 : 3 ≤ k
          · simp [h3, hx]
          · simp [h3]
    · intro j j'
      cases v with
      | none =>
        rw [List.map_cons]
        rw [show (none : Option ℚ).getD sentinel = sentinel from rfl]
        rw [rleByGo, rleByGo]
        rw [if_pos (by simp), if_neg (by simp [optMatches])]
        rw [flatOf_cons, ihB (j + 1) 1]
        simp
      | some w =>
        have hw : w ≠ sentinel := by
          intro h
          exact hclean (some w) (List.mem_cons_self _ _) (by rw [h])
        rw [List.map_cons]
        rw [show (some w).getD sentinel = w from rfl]
        rw [rleByGo, rleByGo]
        rw [if_neg (by simp [hw]), if_neg (by simp [optMatches])]
        rw [flatOf_cons, flatOf_cons, ihA w 1 hw]
        simp

theorem specFlat_allNone : ∀ (rest : List (Option ℚ)) (j : Nat), (∀ u ∈ rest, u = none) →
    flatOf (fun run => 3 ≤ run.2 ∧ run.1.isSome) (rleByGo optMatches none j rest) = (0, 0) := by
  intro rest
  induction rest with
  | nil => intro j _; simp [rleByGo, flatOf]
  | cons u rest ih =>
    intro j hall
    have hu : u = none := hall u (List.mem_cons_self _ _)
    subst hu
    rw [rleByGo, if_neg (by simp [optMatches])]
    rw [flatOf_cons, ih 1 (fun x hx => hall x (List.mem_cons_of_mem _ hx))]
    simp

/-- C9 counterexample: the claim says nulls act as a distinct sentinel that
never matches a value, so three consecutive genuine readings of −9999 form one
flat period of 3 hours.  The code encodes nulls as the literal −9999 and then
refuses to count any −9999-valued run, reporting no flat period at all for
this series. -/
theorem c9_counterexample :
    flatStats [some (-9999), some (-9999), some (-9999)] = (0, 0) ∧
    specFlatStats [some (-9999), some (-9999), some (-9999)] = (1, 3) := by
  constructor <;> decide

/-- C9 (amended): nulls are encoded as the literal sentinel value −9999 before
run-length encoding, so the sentinel matches other nulls and any genuine value
equal to −9999, and runs whose value is −9999 are never counted.  Whenever no
value of the series equals −9999 this coincides with the specified behaviour:
the reported (count, total hours) of runs of ≥ 3 consecutive equal non-null
values agree. -/
theorem c9_flat_period_encoding (values : List (Option ℚ))
    (h : ∀ v ∈ values, v ≠ some (-9999)) :
    flatStats values = specFlatStats values := by
  have hs : ∀ v ∈ values, v ≠ some sentinel := by simpa [sentinel] using h
  cases values with
  | nil => rfl
  | cons v rest =>
    have hrest : ∀ u ∈ rest, u ≠ some sentinel :=
      fun u hu => hs u (List.mem_cons_of_mem _ hu)
    by_cases hc : ((v :: rest).filterMap id).isEmpty
    · have hall : ∀ u ∈ v :: rest, u = none := by
        intro u hu
        cases hu' : u with
        | none => rfl
        | some a =>
          exfalso
          have hmem : a ∈ (v :: rest).filterMap id :=
            List.mem_filterMap.2 ⟨u, hu, by rw [hu']; rfl⟩
          rw [List.isEmpty_iff.1 hc] at hmem
          cases hmem
      unfold flatStats
      rw [if_pos hc]
      have hv0 : v = none := hall v (List.mem_cons_self _ _)
      subst hv0
      unfold specFlatStats
      rw [show rleBy optMatches (none :: rest) = rleByGo optMatches none 1 rest from rfl]
      exact (specFlat_allNone rest 1 (fun x hx => hall x (List.mem_cons_of_mem _ hx))).symm
    · unfold flatStats specFlatStats
      rw [if_neg hc, List.map_cons]
      cases v with
      | none =>
        rw [show (none : Option ℚ).getD sentinel = sentinel from rfl]
        rw [show rleBy (fun a b : ℚ => a == b)
            (sentinel :: rest.map (fun v => v.getD sentinel)) =
            rleByGo (fun a b : ℚ => a == b) sentinel 1
              (rest.map (fun v => v.getD sentinel)) from rfl]
        rw [show rleBy optMatches (none :: rest) = rleByGo optMatches none 1 rest from rfl]
        exact (c9_rle_agreement rest hrest).2 1 1
      | some w =>
        have hw : w ≠ sentinel := by
          intro hws
          exact hs (some w) (List.mem_cons_self _ _) (by rw [hws])
        rw [show (some w).getD sentinel = w from rfl]
        rw [show rleBy (fun a b : ℚ => a == b)
            (w :: rest.map (fun v => v.getD sentinel)) =
            rleByGo (fun a b : ℚ => a == b) w 1
              (rest.map (fun v => v.getD sentinel)) from rfl]
        rw [show rleBy optMatches (some w :: rest) = rleByGo optMatches (some w) 1 rest from rfl]
        exact (c9_rle_agreement rest hrest).1 w 1 hw

/-- C9 witness: the amended statement at a concrete series with a 3-hour flat
run, a null and a distinct value — code and specified encodings agree and
report one flat period spanning 3 hours. -/
theorem c9_flat_period_encoding_witness :
    flatStats [some 1, some 1, some 1, none, some 2] =
      specFlatStats [some 1, some 1, some 1, none, some 2] ∧
    flatStats [some 1, some 1, some 1, none, some 2] = (1, 3) := by
  constructor
  · exact c9_flat_period_encoding _ (by decide)
  · decide

/-! ## Parser lemmas and claim theorems (C3, C4) -/

theorem convertEnergy_sorted (valueCol : String) (rows : List ParsedRow)
    (h : List.Sorted (fun a b : ParsedRow => a.ts ≤ b.ts) rows) :
    List.Sorted (fun a b : ParsedRow => a.ts ≤ b.ts) (convertEnergy valueCol rows) := by
  unfold convertEnergy
  split
  · split
    · exact h.map _ (fun a b hab => hab)
    · exact h.map _ (fun a b hab => hab)
  · exact h

theorem convertEnergy_ne_nil (valueCol : String) (rows : List ParsedRow)
    (h : rows ≠ []) : convertEnergy valueCol rows ≠ [] := by
  unfold convertEnergy
  split
  · split
    · simpa using h
    · simpa using h
  · exact h

/-- C3 counterexample: the claim says duplicate rows are removed.  Parsing a
table with two rows carrying the same timestamp returns both rows; the
timestamp column of the result is not duplicate-free. -/
theorem c3_counterexample :
    parse_load_profile (fun c : ℤ => some c) (fun c : ℤ => some (c : ℚ))
      (⟨["date", "load"], [[10, 5], [10, 7]]⟩ : Table ℤ) =
      Except.ok [⟨10, some 5⟩, ⟨10, some 7⟩] ∧
    ¬ (([⟨10, some 5⟩, ⟨10, some 7⟩] : List ParsedRow).map (fun r => r.ts)).Nodup := by
  refine ⟨rfl, by decide⟩

/-- C3 (amended): for every decoded table the parser accepts, the result is a
non-empty sequence sorted ascending by timestamp; rows with unparseable
timestamps are dropped, but duplicate timestamps are retained. -/
theorem c3_parse_sorted_nonempty {C : Type} (tsP : C → Option ℤ) (numP : C → Option ℚ)
    (t : Table C) (res : List ParsedRow)
    (hok : parse_load_profile tsP numP t = Except.ok res) :
    res ≠ [] ∧ List.Sorted (fun a b : ParsedRow => a.ts ≤ b.ts) res := by
  unfold parse_load_profile at hok
  split at hok
  · cases hok
  · split at hok
    · cases hok
    · split at hok
      · cases hok
      · split at hok
        · cases hok
        · rename_i valueCol hvc hts hne
          injection hok with hok
          subst hok
          have hsorted : List.Sorted (fun a b : ParsedRow => a.ts ≤ b.ts)
              (List.insertionSort (fun a b : ParsedRow => a.ts ≤ b.ts)
                (t.rows.filterMap (fun row =>
                  match (getCell t row (chosenTsCol t)).bind tsP with
                  | none => none
                  | some ts => some (⟨ts, (getCell t row valueCol).bind numP⟩ : ParsedRow)))) := by
            haveI : IsTotal ParsedRow (fun a b : ParsedRow => a.ts ≤ b.ts) :=
              ⟨fun a b => le_total a.ts b.ts⟩
            haveI : IsTrans ParsedRow (fun a b : ParsedRow => a.ts ≤ b.ts) :=
              ⟨fun _ _ _ hab hbc => le_trans hab hbc⟩
            exact List.sorted_insertionSort _ _
          refine ⟨convertEnergy_ne_nil _ _ ?_, convertEnergy_sorted _ _ hsorted⟩
          intro hnil
          rw [hnil] at hne
          simp at hne

/-- C3 witness: the amended statement at a concrete two-row table given in
descending timestamp order; the parse succeeds and the theorem yields
non-emptiness and sortedness of the (ascending) result. -/
theorem c3_parse_sorted_nonempty_witness :
    parse_load_profile (fun c : ℤ => some c) (fun c : ℤ => some (c : ℚ))
      (⟨["date", "load"], [[20, 7], [10, 5]]⟩ : Table ℤ) =
      Except.ok [⟨10, some 5⟩, ⟨20, some 7⟩] ∧
    ([⟨10, some 5⟩, ⟨20, some 7⟩] : List ParsedRow) ≠ [] ∧
    List.Sorted (fun a b : ParsedRow => a.ts ≤ b.ts) [⟨10, some 5⟩, ⟨20, some 7⟩] := by
  have h : parse_load_profile (fun c : ℤ => some c) (fun c : ℤ => some (c : ℚ))
      (⟨["date", "load"], [[20, 7], [10, 5]]⟩ : Table ℤ) =
      Except.ok [⟨10, some 5⟩, ⟨20, some 7⟩] := rfl
  exact ⟨h, (c3_parse_sorted_nonempty _ _ _ _ h).1, (c3_parse_sorted_nonempty _ _ _ _ h).2⟩

/-- C4 counterexample: the claim says the parser fails when no column name
matches the timestamp-hint vocabulary.  For a table with columns "a" and
"load" — no timestamp hint matches — the parser instead falls back to the
first column and succeeds. -/
theorem c4_counterexample :
    detectColumn ["a", "load"] tsHints = none ∧
    (parse_load_profile (fun c : ℤ => some c) (fun c : ℤ => some (c : ℚ))
      (⟨["a", "load"], [[0, 1], [60, 2]]⟩ : Table ℤ)).toOption.isSome = true := by
  exact ⟨by decide, rfl⟩

/-- C4 (amended): when no column matches the timestamp hints the parser does
not fail but falls back to the first column; it fails when the decoded table
is empty or when every row's timestamp fails to parse (and also when no value
column is detectable). -/
theorem c4_parse_failure_modes {C : Type} (tsP : C → Option ℤ) (numP : C → Option ℚ)
    (t : Table C) :
    (detectColumn t.cols tsHints = none → chosenTsCol t = t.cols.headD "") ∧
    (t.rows = [] → ∃ e, parse_load_profile tsP numP t = Except.error e) ∧
    ((∀ row ∈ t.rows, (getCell t row (chosenTsCol t)).bind tsP = none) →
      ∃ e, parse_load_profile tsP numP t = Except.error e) := by
  refine ⟨?_, ?_, ?_⟩
  · intro h
    unfold chosenTsCol
    rw [h]
    rfl
  · intro h
    unfold parse_load_profile
    rw [if_pos (by simp [h])]
    exact ⟨_, rfl⟩
  · intro hall
    unfold parse_load_profile
    by_cases hempty : (t.rows.isEmpty || t.cols.isEmpty) = true
    · rw [if_pos hempty]
      exact ⟨_, rfl⟩
    · rw [if_neg hempty]
      cases hv : chosenValueCol t with
      | none => exact ⟨_, rfl⟩
      | some valueCol =>
        have hts : ((t.rows.map (fun row => (getCell t row (chosenTsCol t)).bind tsP)).all
            (fun o => o.isNone)) = true := by
          rw [List.all_eq_true]
          intro o ho
          obtain ⟨row, hrow, rfl⟩ := List.mem_map.1 ho
          rw [hall row hrow]
          rfl
        refine ⟨"Could not parse any timestamps", ?_⟩
        simp only [hts]
        rfl

/-- C4 witness: a table with three hint-free column names and no rows — the
fallback picks the first column, and the parser fails on emptiness (the
all-timestamps-fail hypothesis holds vacuously). -/
theorem c4_parse_failure_modes_witness :
    chosenTsCol (⟨["x", "y", "z"], []⟩ : Table ℤ) = "x" ∧
    (∃ e, parse_load_profile (fun c : ℤ => some c) (fun c : ℤ => some (c : ℚ))
      (⟨["x", "y", "z"], []⟩ : Table ℤ) = Except.error e) := by
  constructor
  · rw [(c4_parse_failure_modes (fun c : ℤ => some c) (fun c : ℤ => some (c : ℚ))
      (⟨["x", "y", "z"], []⟩ : Table ℤ)).1 (by decide)]
    rfl
  · exact (c4_parse_failure_modes (fun c : ℤ => some c) (fun c : ℤ => some (c : ℚ))
      (⟨["x", "y", "z"], []⟩ : Table ℤ)).2.1 rfl

/-! ## Pipeline claim theorem (C2) -/

theorem runStages_error (st : JobStatus) (e : String)
    (post : List (JobStatus × Except String Unit)) :
    ∀ (pre : List (JobStatus × Except String Unit)) (job : Job),
      (∀ p ∈ pre, p.2 = Except.ok ()) →
      ∃ j, runStages job (pre ++ (st, Except.error e) :: post) = (j, Except.error e) := by
  intro pre
  induction pre with
  | nil =>
    intro job _
    exact ⟨{ job with status := st }, rfl⟩
  | cons a pre ih =>
    intro job hpre
    obtain ⟨sta, act⟩ := a
    have hact : act = Except.ok () := hpre (sta, act) (List.mem_cons_self _ _)
    subst hact
    exact ih { job with status := sta } (fun p hp => hpre p (List.mem_cons_of_mem _ hp))

/-- C2: if any stage raises an exception (with every earlier stage
succeeding), the pipeline marks the job failed, stores the literal exception
text as `error_message` (which is therefore non-null), stamps `completed_at`,
and re-raises the same exception to the dispatcher. -/
theorem c2_failure_handling (pre post : List (JobStatus × Except String Unit))
    (st : JobStatus) (e : String) (now : Nat) (job : Job)
    (hpre : ∀ p ∈ pre, p.2 = Except.ok ()) :
    (run_pipeline (pre ++ (st, Except.error e) :: post) now job).1.status = JobStatus.failed ∧
    (run_pipeline (pre ++ (st, Except.error e) :: post) now job).1.error_message = some e ∧
    (run_pipeline (pre ++ (st, Except.error e) :: post) now job).1.error_message ≠ none ∧
    (run_pipeline (pre ++ (st, Except.error e) :: post) now job).1.completed_at = some now ∧
    (run_pipeline (pre ++ (st, Except.error e) :: post) now job).2 = Except.error e := by
  obtain ⟨j, hj⟩ := runStages_error st e post pre job hpre
  unfold run_pipeline
  rw [hj]
  exact ⟨rfl, rfl, by simp, rfl, rfl⟩

/-- C2 witness: a pipeline whose parsing stage succeeds and whose normalizing
stage raises an exception with text "boom", run on a queued job at time 42. -/
theorem c2_failure_handling_witness :
    (run_pipeline [(JobStatus.parsing, Except.ok ()), (JobStatus.normalizing, Except.error "boom")]
      42 ⟨JobStatus.queued, none, none⟩).1.status = JobStatus.failed ∧
    (run_pipeline [(JobStatus.parsing, Except.ok ()), (JobStatus.normalizing, Except.error "boom")]
      42 ⟨JobStatus.queued, none, none⟩).1.error_message = some "boom" ∧
    (run_pipeline [(JobStatus.parsing, Except.ok ()), (JobStatus.normalizing, Except.error "boom")]
      42 ⟨JobStatus.queued, none, none⟩).1.completed_at = some 42 ∧
    (run_pipeline [(JobStatus.parsing, Except.ok ()), (JobStatus.normalizing, Except.error "boom")]
      42 ⟨JobStatus.queued, none, none⟩).2 = Except.error "boom" := by
  have h := c2_failure_handling [(JobStatus.parsing, Except.ok ())] []
    JobStatus.normalizing "boom" 42 ⟨JobStatus.queued, none, none⟩
    (by intro p hp; simp only [List.mem_cons, List.not_mem_nil, or_false] at hp; rw [hp])
  exact ⟨h.1, h.2.1, h.2.2.2.1, h.2.2.2.2⟩

end GridFlow
